import Mathlib

/-!
Shallow embedding of the go-evdev package (`device.go` and the bitmap
decoder it uses) and proofs of the specified properties.

Conventions of the embedding:
* a byte buffer (`[]byte`) is a `List Nat`, each element one byte;
* Go machine integers are `Nat`/`Int` (overflow is made explicit where it
  matters);
* every kernel interaction (`os.Open`, `file.Read`, the `ioctl*` helpers)
  is an explicit parameter of the modelled function: an `Except String α`
  (or, for stream reads, a record of the bytes delivered and the reported
  error), so that each device-handle operation becomes a pure function of
  the kernel's answers, exactly following the control flow of the Go code.
-/

namespace Evdev

deriving instance DecidableEq for Except

/-- Modelled from the spec: the bitmap decoder's single-bit test (the file
defining `newBitmap`/`bitIsSet` is not among the sources at hand; only its
callers in `device.go` are).  Bit position `p` maps to byte `p / 8`, bit
`p % 8` within that byte, bit 0 least significant; positions at or beyond
`8 * length` read as unset, never an error. -/
def bitIsSet (bits : List Nat) (n : Nat) : Bool :=
  if h : n / 8 < bits.length then (bits.get ⟨n / 8, h⟩).testBit (n % 8) else false

/-- Modelled from the spec: the bitmap decoder's `setBits` (same missing
file as `bitIsSet`): the ordered, ascending list of the set bit positions
of the buffer. -/
def setBits (bits : List Nat) : List Nat :=
  (List.range (8 * bits.length)).filter (fun p => bitIsSet bits p)

theorem bitIsSet_of_le (bits : List Nat) (n : Nat) (h : 8 * bits.length ≤ n) :
    bitIsSet bits n = false := by
  unfold bitIsSet
  rw [dif_neg]
  omega

theorem mem_setBits (bits : List Nat) (p : Nat) :
    p ∈ setBits bits ↔ bitIsSet bits p = true := by
  unfold setBits
  rw [List.mem_filter, List.mem_range]
  constructor
  · exact fun h => h.2
  · intro h
    refine ⟨?_, h⟩
    by_contra hp
    rw [bitIsSet_of_le bits p (by omega)] at h
    exact Bool.false_ne_true h

theorem setBits_pairwise (bits : List Nat) : (setBits bits).Pairwise (· < ·) :=
  (List.pairwise_lt_range _).sublist (List.filter_sublist _)

theorem setBits_nodup (bits : List Nat) : (setBits bits).Nodup :=
  (setBits_pairwise bits).imp Nat.ne_of_lt

/-- C4: the bitmap decoder's single-bit test agrees with membership in
`setBits`; `setBits` is strictly ascending (hence duplicate-free); an empty
or all-zero buffer yields no set bits; an all-ones buffer of `N` bytes
yields exactly the positions `0 .. 8*N - 1`; and positions at or beyond
eight times the buffer length test as unset without error. -/
theorem bitmap_decoder_correct :
    (∀ bits p, bitIsSet bits p = true ↔ p ∈ setBits bits) ∧
    (∀ bits, (setBits bits).Pairwise (· < ·) ∧ (setBits bits).Nodup) ∧
    setBits [] = [] ∧
    (∀ bits, (∀ b ∈ bits, b = 0) → setBits bits = []) ∧
    (∀ N, setBits (List.replicate N 255) = List.range (8 * N)) ∧
    (∀ bits p, 8 * bits.length ≤ p → bitIsSet bits p = false) := by
  refine ⟨fun bits p => (mem_setBits bits p).symm,
    fun bits => ⟨setBits_pairwise bits, setBits_nodup bits⟩, rfl, ?_, ?_, bitIsSet_of_le⟩
  · intro bits hz
    rw [setBits, List.filter_eq_nil_iff]
    intro p _
    simp only [Bool.not_eq_true]
    unfold bitIsSet
    split
    · rw [hz _ (bits.get_mem _ _)]
      exact Nat.zero_testBit _
    · rfl
  · intro N
    rw [setBits, List.length_replicate]
    apply List.filter_eq_self.mpr
    intro p hp
    rw [List.mem_range] at hp
    unfold bitIsSet
    split
    · next h =>
      rw [List.get_eq_getElem, List.getElem_replicate]
      have h8 : p % 8 < 8 := Nat.mod_lt _ (by norm_num)
      have : (255 : Nat) = 2 ^ 8 - 1 := by norm_num
      rw [this, Nat.testBit_two_pow_sub_one]
      exact decide_eq_true h8
    · next h =>
      rw [List.length_replicate] at h
      exact absurd (by omega : p / 8 < N) h

/-- Witness for C4 at concrete buffers. -/
theorem bitmap_decoder_correct_witness :
    setBits [0, 0] = [] ∧ setBits (List.replicate 2 255) = List.range 16 :=
  ⟨bitmap_decoder_correct.2.2.2.1 [0, 0] (by decide),
   by rw [bitmap_decoder_correct.2.2.2.2.1 2]⟩

/-- Modelled from the spec: the timestamp of an event record — seconds and
microseconds, each a signed 64-bit field on this ABI (the file defining the
event struct is not among the sources at hand; `device.go` only uses it). -/
structure TimeVal where
  sec : Int
  usec : Int
deriving DecidableEq

/-- Modelled from the spec: one event record — timestamp, unsigned 16-bit
type, unsigned 16-bit code, signed 32-bit value, packed little-endian on
the wire. Fields hold the mathematical value of the machine field. -/
structure InputEvent where
  time : TimeVal
  type : Nat
  code : Nat
  value : Int
deriving DecidableEq

/-- `eventsize = int(unsafe.Sizeof(InputEvent{}))`: 8+8+2+2+4 = 24 bytes on
the 64-bit ABI the spec describes. -/
def eventsize : Nat := 24

/-- The all-zero record a fresh Go `InputEvent{}` holds (and the decode of
24 zero bytes). -/
def zeroEvent : InputEvent := ⟨⟨0, 0⟩, 0, 0, 0⟩

/-- Value of a byte list read little-endian (each entry one byte; `% 256`
makes the model total on `Nat` entries). -/
def leNat : List Nat → Nat
  | [] => 0
  | b :: bs => b % 256 + 256 * leNat bs

/-- Reinterpret an unsigned `w`-bit value as the signed two's-complement
value, as `binary.Read` does for the int64/int32 fields. -/
def toSigned (w : Nat) (n : Nat) : Int :=
  if n < 2 ^ (w - 1) then (n : Int) else (n : Int) - 2 ^ w

/-- `binary.Read`'s little-endian decode of one 24-byte event record. -/
def decodeEvent (bs : List Nat) : InputEvent where
  time := { sec := toSigned 64 (leNat (bs.take 8))
            usec := toSigned 64 (leNat ((bs.drop 8).take 8)) }
  type := leNat ((bs.drop 16).take 2)
  code := leNat ((bs.drop 18).take 2)
  value := toSigned 32 (leNat ((bs.drop 20).take 4))

/-- `binary.Read(b, binary.LittleEndian, &events)` with `events` a slice of
16 records: decodes 16 consecutive fixed-size records, or fails when the
source holds fewer than `16 * eventsize` bytes. -/
def binaryRead16 (bs : List Nat) : Except String (List InputEvent) :=
  if bs.length < 16 * eventsize then .error "unexpected EOF"
  else .ok ((List.range 16).map fun i => decodeEvent ((bs.drop (eventsize * i)).take eventsize))

/-- `binary.Read` of a single 24-byte record. -/
def binaryRead1 (bs : List Nat) : Except String InputEvent :=
  if bs.length < eventsize then .error "unexpected EOF"
  else .ok (decodeEvent bs)

/-- Outcome of one `d.file.Read(buffer)` call: the bytes the kernel wrote
into the front of the buffer, and the error it returned. Go's `io.Reader`
contract permits a short read (fewer bytes than the buffer holds) together
with a nil error; the unwritten tail of the freshly made buffer stays
zero. -/
structure FileRead where
  data : List Nat
  err : Option String

/-- Contents of a fresh `make([]byte, n)` buffer after `file.Read` wrote
`data` into its front: the first `n` bytes of `data` padded with zeros up
to length `n`. -/
def filledBuffer (n : Nat) (data : List Nat) : List Nat :=
  (data ++ List.replicate n 0).take n

/-- The trailing-structure removal loop of `Read` (device.go:217-222):
scanning from index 0, truncate at the first record whose `Time.Sec` field
is zero. -/
def trimEvents : List InputEvent → List InputEvent
  | [] => []
  | e :: es => if e.time.sec = 0 then [] else e :: trimEvents es

/-- `(*InputDevice).Read` (device.go:201-225) as a function of the outcome
of its one underlying `file.Read` call. The Go code discards the byte
count returned by `file.Read` and checks only its error (returning the
still-zero events slice alongside the error); otherwise it decodes all 16
records from the zero-padded 384-byte buffer and trims the tail. -/
def InputDevice.Read (r : FileRead) : List InputEvent × Option String :=
  match r.err with
  | some e => (List.replicate 16 zeroEvent, some e)
  | none =>
    match binaryRead16 (filledBuffer (eventsize * 16) r.data) with
    | .error e => (List.replicate 16 zeroEvent, some e)
    | .ok events => (trimEvents events, none)

/-- `(*InputDevice).ReadOne` (device.go:229-245) as a function of the
outcome of its one underlying `file.Read` call: on a read error it returns
the zero event together with the error, on a decode error a nil pointer
and the error, otherwise the decoded record and nil. -/
def InputDevice.ReadOne (r : FileRead) : Option InputEvent × Option String :=
  match r.err with
  | some e => (some zeroEvent, some e)
  | none =>
    match binaryRead1 (filledBuffer eventsize r.data) with
    | .error e => (none, some e)
    | .ok ev => (some ev, none)

theorem filledBuffer_length (n : Nat) (data : List Nat) :
    (filledBuffer n data).length = n := by
  simp [filledBuffer]

theorem binaryRead16_length (bs : List Nat) (es : List InputEvent)
    (h : binaryRead16 bs = .ok es) : es.length = 16 := by
  unfold binaryRead16 at h
  split at h
  · exact absurd h (by simp)
  · have h' := Except.ok.inj h
    rw [← h']
    simp

theorem trimEvents_eq_take (es : List InputEvent) (K : Nat) (hK : K < es.length)
    (hvalid : ∀ i, i < K → (es.getD i zeroEvent).time.sec ≠ 0)
    (hzero : (es.getD K zeroEvent).time.sec = 0) :
    trimEvents es = es.take K := by
  induction es generalizing K with
  | nil => simp at hK
  | cons e es ih =>
    cases K with
    | zero =>
      rw [List.getD_cons_zero] at hzero
      simp [trimEvents, hzero]
    | succ K =>
      have h0 : e.time.sec ≠ 0 := hvalid 0 (Nat.succ_pos K)
      rw [trimEvents, if_neg h0, List.take_succ_cons]
      rw [ih K (by simpa using hK)
        (fun i hi => by simpa using hvalid (i + 1) (by omega))
        (by simpa using hzero)]

theorem trimEvents_eq_self (es : List InputEvent)
    (h : ∀ e ∈ es, e.time.sec ≠ 0) : trimEvents es = es := by
  induction es with
  | nil => rfl
  | cons e es ih =>
    rw [trimEvents, if_neg (h e (List.mem_cons_self e es))]
    rw [ih fun x hx => h x (List.mem_cons_of_mem e hx)]

/-- C1: when the 16-record buffer of a batch `Read` decodes to a list `es`
whose first `K` records have non-zero seconds and whose `K`-th record has
zero seconds (`K < 16`), the result is exactly the first `K` records; when
all 16 decoded records have non-zero seconds, the result is all 16.
Truncation is at the first zero-seconds record, scanning from index 0. -/
theorem Read_trims_at_first_zero_sec (r : FileRead) (es : List InputEvent)
    (herr : r.err = none)
    (hes : binaryRead16 (filledBuffer (eventsize * 16) r.data) = .ok es) :
    (∀ K, K < 16 → (∀ i, i < K → (es.getD i zeroEvent).time.sec ≠ 0) →
      (es.getD K zeroEvent).time.sec = 0 →
      InputDevice.Read r = (es.take K, none)) ∧
    ((∀ e ∈ es, e.time.sec ≠ 0) → InputDevice.Read r = (es, none)) := by
  have hlen : es.length = 16 := binaryRead16_length _ _ hes
  constructor
  · intro K hK hvalid hzero
    rw [InputDevice.Read, herr, hes]
    dsimp only
    rw [trimEvents_eq_take es K (by omega) hvalid hzero]
  · intro hall
    rw [InputDevice.Read, herr, hes]
    dsimp only
    rw [trimEvents_eq_self es hall]

/-- Two records with seconds 1, then nothing: the kernel delivered 49 bytes. -/
def sampleData2 : List Nat := [1] ++ List.replicate 23 0 ++ [1]

/-- The decode of `sampleData2` zero-padded to 384 bytes. -/
def sampleEvents2 : List InputEvent :=
  [⟨⟨1, 0⟩, 0, 0, 0⟩, ⟨⟨1, 0⟩, 0, 0, 0⟩] ++ List.replicate 14 zeroEvent

/-- Sixteen records with seconds 1: a full 384-byte delivery. -/
def sampleData16 : List Nat := (List.replicate 16 ([1] ++ List.replicate 23 0)).flatten

set_option maxRecDepth 100000 in
/-- Witness for C1: a buffer carrying two records with seconds 1 followed by
zero padding yields exactly those two records; a buffer of 16 such records
yields all 16. -/
theorem Read_trims_at_first_zero_sec_witness :
    InputDevice.Read { data := sampleData2, err := none } =
      ([⟨⟨1, 0⟩, 0, 0, 0⟩, ⟨⟨1, 0⟩, 0, 0, 0⟩], none) ∧
    InputDevice.Read { data := sampleData16, err := none } =
      (List.replicate 16 ⟨⟨1, 0⟩, 0, 0, 0⟩, none) := by
  constructor
  · have h := (Read_trims_at_first_zero_sec
      { data := sampleData2, err := none } sampleEvents2
      rfl (by rfl)).1 2 (by norm_num) (by decide) (by decide)
    rw [h]
    rfl
  · exact (Read_trims_at_first_zero_sec
      { data := sampleData16, err := none }
      (List.replicate 16 ⟨⟨1, 0⟩, 0, 0, 0⟩)
      rfl (by rfl)).2 (by decide)

set_option maxRecDepth 100000 in
/-- C3 counterexample: the underlying `file.Read` completes with 0 of the
384 requested bytes and a nil error — a short read permitted by Go's
`io.Reader` contract (and the normal case for an evdev node holding fewer
than 16 queued events). `Read` does not return an I/O error: it decodes
the zero-filled buffer and returns (after trimming) an empty record list
with a nil error. -/
theorem Read_short_read_counterexample :
    (([] : List Nat).length < eventsize * 16) ∧
    InputDevice.Read { data := [], err := none } = ([], none) := by
  constructor
  · norm_num [eventsize]
  · decide

/-- C3 amended: `Read` and `ReadOne` return an I/O error exactly when the
underlying `file.Read` reports one (which they pass through unchanged); a
short read that completes with a nil error is not detected — the byte
count is discarded and the zero-padded buffer is decoded as if full (for
the batch `Read`, the zero-seconds trim then drops the unfilled tail). -/
theorem Read_error_iff_file_error (r : FileRead) :
    (∀ e, r.err = some e →
      (InputDevice.Read r).2 = some e ∧ (InputDevice.ReadOne r).2 = some e) ∧
    (r.err = none →
      (InputDevice.Read r).2 = none ∧ (InputDevice.ReadOne r).2 = none) := by
  constructor
  · intro e he
    rw [InputDevice.Read, InputDevice.ReadOne, he]
    exact ⟨rfl, rfl⟩
  · intro he
    rw [InputDevice.Read, InputDevice.ReadOne, he]
    rw [binaryRead16, binaryRead1, filledBuffer_length, filledBuffer_length]
    norm_num [eventsize]

/-- Witness for C3's amended claim: a reported error is passed through by
`Read`; an errorless (even empty) read yields a nil error from `ReadOne`. -/
theorem Read_error_iff_file_error_witness :
    (InputDevice.Read { data := [], err := some "EOF" }).2 = some "EOF" ∧
    (InputDevice.ReadOne { data := [], err := none }).2 = none :=
  ⟨((Read_error_iff_file_error { data := [], err := some "EOF" }).1 "EOF" rfl).1,
   ((Read_error_iff_file_error { data := [], err := none }).2 rfl).2⟩

/-- Event-type constants from the Linux input headers (the generated
codes.go carrying them is not among the sources at hand; these are the
kernel's fixed values, which device.go's `State` dispatches on). -/
def EV_KEY : Nat := 0x01

/-- Linux event-type constant: relative axes. -/
def EV_REL : Nat := 0x02

/-- Linux event-type constant: absolute axes. -/
def EV_ABS : Nat := 0x03

/-- Linux event-type constant: switches. -/
def EV_SW : Nat := 0x05

/-- Linux event-type constant: LEDs. -/
def EV_LED : Nat := 0x11

/-- Linux event-type constant: sound. -/
def EV_SND : Nat := 0x12

/-- The kernel's answers to the ioctl calls `State` makes: `EVIOCGBIT(0)`
(the global event-type bit-field), `EVIOCGBIT(t)` (supported codes of type
`t`), and the four state queries `EVIOCGKEY` / `EVIOCGSW` / `EVIOCGLED` /
`EVIOCGSND`. -/
structure StateEnv where
  evBits : Except String (List Nat)
  codeBits : Nat → Except String (List Nat)
  keyState : Except String (List Nat)
  swState : Except String (List Nat)
  ledState : Except String (List Nat)
  sndState : Except String (List Nat)

/-- `(*InputDevice).State` (device.go:118-166) as a function of the
kernel's answers. The Go `StateMap` is modelled as the association list
the final loop builds; its keys, the elements of `setBits codeBits`, are
distinct, so the list determines the map. -/
def InputDevice.State (env : StateEnv) (t : Nat) :
    Except String (List (Nat × Bool)) :=
  match env.evBits with
  | .error e => .error ("Cannot get evBits: " ++ e)
  | .ok evB =>
    if ¬ bitIsSet evB t then .ok []
    else
      match env.codeBits t with
      | .error e => .error ("Cannot get evBits: " ++ e)
      | .ok codeB =>
        let stateRes : Except String (List Nat) :=
          if t = EV_KEY then env.keyState
          else if t = EV_SW then env.swState
          else if t = EV_LED then env.ledState
          else if t = EV_SND then env.sndState
          else .error ("Unsupported evType " ++ toString t)
        match stateRes with
        | .error e => .error e
        | .ok stateB =>
          .ok ((setBits codeB).map fun code => (code, bitIsSet stateB code))

/-- C2: for every supported type in {key, switch, LED, sound} and every
contents of the state bit-field, a code appears in the map `State` returns
only if its bit is set in the type's supported-codes bit-field; codes set
in the state bit-field but not supported are absent. -/
theorem State_only_supported_codes (env : StateEnv) (t : Nat)
    (_ht : t = EV_KEY ∨ t = EV_SW ∨ t = EV_LED ∨ t = EV_SND)
    (codeB : List Nat) (hcode : env.codeBits t = .ok codeB)
    (res : List (Nat × Bool)) (hres : InputDevice.State env t = .ok res) :
    ∀ c b, (c, b) ∈ res → bitIsSet codeB c = true := by
  intro c b hmem
  unfold InputDevice.State at hres
  rcases hev : env.evBits with e | evB <;> rw [hev] at hres <;> dsimp only at hres
  · exact absurd hres (by simp)
  · by_cases hb : bitIsSet evB t = true
    · rw [if_neg (by simp [hb]), hcode] at hres
      dsimp only at hres
      split at hres
      · exact absurd hres (by simp)
      · rw [Except.ok.injEq] at hres
        rw [← hres, List.mem_map] at hmem
        obtain ⟨code, hcodemem, hpair⟩ := hmem
        rw [Prod.mk.injEq] at hpair
        rw [← hpair.1]
        exact (mem_setBits codeB code).mp hcodemem
    · rw [if_pos (by simpa using hb)] at hres
      rw [Except.ok.injEq] at hres
      rw [← hres] at hmem
      exact absurd hmem (List.not_mem_nil _)

/-- A device environment whose lower-layer queries all succeed but whose
global type bit-field marks nothing as supported. -/
def sampleStateEnvNone : StateEnv where
  evBits := .ok [0]
  codeBits := fun _ => .ok [255]
  keyState := .ok [255]
  swState := .ok [255]
  ledState := .ok [255]
  sndState := .ok [255]

/-- Witness for C2: a key-supporting device whose supported-codes bit-field
is `[3]` (codes 0 and 1) while the state bit-field has every bit of the
first byte set: the result holds exactly codes 0 and 1. -/
theorem State_only_supported_codes_witness :
    InputDevice.State
      { evBits := .ok [2], codeBits := fun _ => .ok [3], keyState := .ok [255],
        swState := .ok [255], ledState := .ok [255], sndState := .ok [255] }
      EV_KEY = .ok [(0, true), (1, true)] ∧
    bitIsSet [3] 0 = true ∧ bitIsSet [3] 1 = true := by
  refine ⟨by decide, ?_, ?_⟩
  · exact State_only_supported_codes
      { evBits := .ok [2], codeBits := fun _ => .ok [3], keyState := .ok [255],
        swState := .ok [255], ledState := .ok [255], sndState := .ok [255] }
      EV_KEY (Or.inl rfl) [3] rfl [(0, true), (1, true)] (by decide)
      0 true (by decide)
  · exact State_only_supported_codes
      { evBits := .ok [2], codeBits := fun _ => .ok [3], keyState := .ok [255],
        swState := .ok [255], ledState := .ok [255], sndState := .ok [255] }
      EV_KEY (Or.inl rfl) [3] rfl [(0, true), (1, true)] (by decide)
      1 true (by decide)

/-- C5: a type whose bit is not set in the global event-type bit-field
yields an empty map and no error, whatever the lower-layer queries would
have answered. -/
theorem State_type_not_supported_empty (env : StateEnv) (t : Nat)
    (evB : List Nat) (hev : env.evBits = .ok evB)
    (ht : bitIsSet evB t = false) :
    InputDevice.State env t = .ok [] := by
  unfold InputDevice.State
  rw [hev]
  simp [ht]

/-- Witness for C5: the all-zero type bit-field of `sampleStateEnvNone`
marks keys unsupported even though every lower-layer query succeeds. -/
theorem State_type_not_supported_empty_witness :
    InputDevice.State sampleStateEnvNone EV_KEY = .ok [] :=
  State_type_not_supported_empty sampleStateEnvNone EV_KEY [0] rfl (by decide)

/-- C6: a type outside {key, switch, LED, sound} whose bit is set in the
global bit-field is rejected with the "Unsupported evType" error naming
the type (the supported-codes fetch for it having succeeded), and no state
map is returned. -/
theorem State_unsupported_evtype_error (env : StateEnv) (t : Nat)
    (ht : t ≠ EV_KEY ∧ t ≠ EV_SW ∧ t ≠ EV_LED ∧ t ≠ EV_SND)
    (evB : List Nat) (hev : env.evBits = .ok evB) (hbit : bitIsSet evB t = true)
    (codeB : List Nat) (hcode : env.codeBits t = .ok codeB) :
    InputDevice.State env t = .error ("Unsupported evType " ++ toString t) := by
  unfold InputDevice.State
  rw [hev]
  simp [hbit, hcode, ht.1, ht.2.1, ht.2.2.1, ht.2.2.2]

/-- Witness for C6: a device marking relative axes (type 2) supported; the
request is rejected as "Unsupported evType 2", not as a transport error. -/
theorem State_unsupported_evtype_error_witness :
    InputDevice.State
      { evBits := .ok [4], codeBits := fun _ => .ok [255], keyState := .ok [255],
        swState := .ok [255], ledState := .ok [255], sndState := .ok [255] }
      EV_REL = .error "Unsupported evType 2" := by
  have h := State_unsupported_evtype_error
    { evBits := .ok [4], codeBits := fun _ => .ok [255], keyState := .ok [255],
      swState := .ok [255], ledState := .ok [255], sndState := .ok [255] }
    EV_REL (by refine ⟨?_, ?_, ?_, ?_⟩ <;> decide)
    [4] rfl (by decide) [255] rfl
  rw [h]
  rfl

/-- `(*InputDevice).CapableTypes` (device.go:81-96) as a function of the
`EVIOCGBIT(0)` answer: the set bits of the reply, as event types; on query
failure the empty list — the return type has no error channel at all, so
the failure cannot reach the caller. -/
def InputDevice.CapableTypes (evBits : Except String (List Nat)) : List Nat :=
  match evBits with
  | .error _ => []
  | .ok b => (setBits b).map fun t => t

/-- `(*InputDevice).Properties` (device.go:99-114) as a function of the
`EVIOCGPROP` answer: same lenient shape as `CapableTypes`. -/
def InputDevice.Properties (propBits : Except String (List Nat)) : List Nat :=
  match propBits with
  | .error _ => []
  | .ok b => (setBits b).map fun p => p

/-- C7: when the capability bit-field query fails, `CapableTypes` returns
the empty list, and when the property bit-field query fails, `Properties`
returns the empty list; both return types carry no error value, so the
failure is swallowed, never surfaced. -/
theorem capability_failure_swallowed (e e' : String) :
    InputDevice.CapableTypes (.error e) = [] ∧
    InputDevice.Properties (.error e') = [] :=
  ⟨rfl, rfl⟩

/-- Modelled from the spec: per-axis info — current value, minimum,
maximum, fuzz, flat, resolution, signed 32-bit fields (the file defining
`AbsInfo` is not among the sources at hand; `device.go` only passes it
through). -/
structure AbsInfo where
  value : Int
  minimum : Int
  maximum : Int
  fuzz : Int
  flat : Int
  resolution : Int
deriving DecidableEq

/-- The `.ok` payload of an `AbsInfos` result (empty on error). -/
def okEntries (x : Except String (List (Nat × AbsInfo))) : List (Nat × AbsInfo) :=
  match x with
  | .ok l => l
  | .error _ => []

/-- `(*InputDevice).AbsInfos` (device.go:169-187) as a function of the
kernel's answers: the `EVIOCGBIT(EV_ABS)` reply and the per-axis
`EVIOCGABS` replies. The map is the association list the loop builds: one
entry per set axis bit whose info query succeeds. -/
def InputDevice.AbsInfos (absBits : Except String (List Nat))
    (axisInfo : Nat → Except String AbsInfo) :
    Except String (List (Nat × AbsInfo)) :=
  match absBits with
  | .error e => .error ("Cannot get absBits: " ++ e)
  | .ok b => .ok ((setBits b).filterMap fun ax =>
      match axisInfo ax with
      | .ok i => some (ax, i)
      | .error _ => none)

/-- C8: when the absolute-axis bit-field query succeeds, `AbsInfos` returns
without error, and its entries are exactly the pairs of a set axis bit and
the info its individual query returned: a failing per-axis query only
omits that axis, it never makes `AbsInfos` fail. -/
theorem AbsInfos_partial_results (absBits : Except String (List Nat))
    (axisInfo : Nat → Except String AbsInfo) (b : List Nat)
    (hb : absBits = .ok b) :
    InputDevice.AbsInfos absBits axisInfo =
      .ok (okEntries (InputDevice.AbsInfos absBits axisInfo)) ∧
    ∀ a i, ((a, i) ∈ okEntries (InputDevice.AbsInfos absBits axisInfo) ↔
      a ∈ setBits b ∧ axisInfo a = .ok i) := by
  rw [hb]
  unfold InputDevice.AbsInfos okEntries
  dsimp only
  refine ⟨rfl, fun a i => ?_⟩
  rw [List.mem_filterMap]
  constructor
  · rintro ⟨x, hx, hfx⟩
    rcases hq : axisInfo x with e | j <;> rw [hq] at hfx
    · exact absurd hfx (by simp)
    · rw [Option.some.injEq, Prod.mk.injEq] at hfx
      obtain ⟨rfl, rfl⟩ := hfx
      exact ⟨hx, hq⟩
  · rintro ⟨ha, hq⟩
    exact ⟨a, ha, by rw [hq]⟩

/-- An axis-info query that fails for axis 0 and succeeds elsewhere. -/
def sampleAxisQuery : Nat → Except String AbsInfo := fun a =>
  if a = 0 then .error "ENODEV" else .ok ⟨(a : Int), 0, 100, 0, 0, 0⟩

/-- Witness for C8: with axis bits 0 and 2 set and the query failing on
axis 0, the result is `.ok` and holds axis 2 but no entry for axis 0. -/
theorem AbsInfos_partial_results_witness :
    InputDevice.AbsInfos (.ok [5]) sampleAxisQuery =
      .ok (okEntries (InputDevice.AbsInfos (.ok [5]) sampleAxisQuery)) ∧
    (2, ⟨2, 0, 100, 0, 0, 0⟩) ∈ okEntries (InputDevice.AbsInfos (.ok [5]) sampleAxisQuery) ∧
    (0, ⟨0, 0, 100, 0, 0, 0⟩) ∉ okEntries (InputDevice.AbsInfos (.ok [5]) sampleAxisQuery) := by
  have h := AbsInfos_partial_results (.ok [5]) sampleAxisQuery [5] rfl
  refine ⟨h.1, (h.2 2 ⟨2, 0, 100, 0, 0, 0⟩).mpr ⟨by decide, by rfl⟩, fun hmem => ?_⟩
  have hc := ((h.2 0 ⟨0, 0, 100, 0, 0, 0⟩).mp hmem).2
  simp [sampleAxisQuery] at hc

/-- The device handle: it owns the open file resource (abstracted away
here) and caches the packed 32-bit driver version read at open time. -/
structure InputDevice where
  driverVersion : Int
deriving DecidableEq

/-- `(*InputDevice).DriverVersion` (device.go:54-58): major is the cached
int32 shifted right 16 bits, minor is (version >> 8) & 0xff, micro is
(version >> 0) & 0xff. Go's `>>` on a signed operand is an arithmetic
shift, which is exactly the semantics of `>>>`/`Int.land` on `Int`. -/
def InputDevice.DriverVersion (d : InputDevice) : Int × Int × Int :=
  (d.driverVersion >>> (16 : Int),
   Int.land (d.driverVersion >>> (8 : Int)) 0xff,
   Int.land (d.driverVersion >>> (0 : Int)) 0xff)

/-- C9: a handle caching the packed version 0x00040113 reports (4, 1, 19);
in general, for any non-negative in-range int32, the major part is the
value shifted right 16 bits, the minor part is bits 8-15, and the micro
part is bits 0-7. -/
theorem DriverVersion_decomposition :
    InputDevice.DriverVersion ⟨0x00040113⟩ = (4, 1, 19) ∧
    ∀ n : Nat, n < 2 ^ 31 →
      InputDevice.DriverVersion ⟨(n : Int)⟩ =
        (((n / 2 ^ 16 : Nat) : Int), ((n / 2 ^ 8 % 2 ^ 8 : Nat) : Int),
         ((n % 2 ^ 8 : Nat) : Int)) := by
  constructor
  · decide
  · intro n hn
    unfold InputDevice.DriverVersion
    have hsh : ∀ k : Nat, ((n : Int) >>> ((k : Nat) : Int)) = ((n >>> k : Nat) : Int) :=
      fun k => Int.shiftRight_coe_nat n k
    have hland : ∀ m : Nat, Int.land ((m : Nat) : Int) 255 = ((m &&& 255 : Nat) : Int) :=
      fun m => rfl
    have hmask : ∀ m : Nat, m &&& 255 = m % 256 := by
      intro m
      have h8 := Nat.and_pow_two_sub_one_eq_mod m 8
      norm_num at h8
      exact h8
    have h16 : ((16 : Nat) : Int) = (16 : Int) := rfl
    have h8' : ((8 : Nat) : Int) = (8 : Int) := rfl
    have h0' : ((0 : Nat) : Int) = (0 : Int) := rfl
    rw [← h16, ← h8', ← h0', hsh 16, hsh 8, hsh 0]
    rw [hland, hland, hmask, hmask]
    rw [Nat.shiftRight_eq_div_pow, Nat.shiftRight_eq_div_pow, Nat.shiftRight_eq_div_pow]
    norm_num

/-- Witness for C9's general decomposition at the packed value
0x12345678. -/
theorem DriverVersion_decomposition_witness :
    InputDevice.DriverVersion ⟨305419896⟩ = (4660, 86, 120) := by
  have h := DriverVersion_decomposition.2 305419896 (by norm_num)
  simpa using h

/-- The kernel's answers to the two calls `Open` makes: `os.Open` and
`ioctlEVIOCGVERSION`. -/
structure OpenEnv where
  osOpen : Except String Unit
  getVersion : Except String Int

/-- Result of `Open`, with resource accounting: the returned handle (or
none), the returned error (or none), whether the node was actually opened,
and whether `Open` itself issued any Close on it. -/
structure OpenResult where
  device : Option InputDevice
  err : Option String
  fileOpened : Bool
  fileClosed : Bool
deriving DecidableEq

/-- `Open` (device.go:23-38) as a function of the kernel's answers: open
the node (propagating an open failure), then fetch the driver version,
wrapping its failure in "Cannot get driver version: ". No path of the Go
function contains a `Close` call, so `fileClosed` is false throughout. -/
def Open (env : OpenEnv) : OpenResult :=
  match env.osOpen with
  | .error e => ⟨none, some e, false, false⟩
  | .ok _ =>
    match env.getVersion with
    | .error e => ⟨none, some ("Cannot get driver version: " ++ e), true, false⟩
    | .ok v => ⟨some ⟨v⟩, none, true, false⟩

/-- C10: when the node opens but the driver-version ioctl fails, `Open`
returns a nil handle together with an error prefixed "Cannot get driver
version", and the file it opened is left open: no Close is issued, and no
handle is returned through which the caller could close it. -/
theorem Open_leaks_file_on_version_failure (env : OpenEnv) (e : String)
    (hopen : env.osOpen = .ok ()) (hver : env.getVersion = .error e) :
    Open env = ⟨none, some ("Cannot get driver version: " ++ e), true, false⟩ := by
  unfold Open
  rw [hopen, hver]

/-- Witness for C10 at a concrete failing version query. -/
theorem Open_leaks_file_on_version_failure_witness :
    Open ⟨.ok (), .error "EINVAL"⟩ =
      ⟨none, some "Cannot get driver version: EINVAL", true, false⟩ := by
  have h := Open_leaks_file_on_version_failure ⟨.ok (), .error "EINVAL"⟩ "EINVAL" rfl rfl
  rw [h]
  rfl

end Evdev
